import Mathlib

/-!
Verification of the batch pipeline in `processFounders.js`
(repository caliperce/Finding_Twitter_Profile).

Shallow embedding conventions:
* JavaScript `null`/`undefined` values are modelled with `Option`.
* The external world (proxy search backend, snapshot dataset API, language
  model) is modelled by oracles: the search backend is a function from the
  request URL and the attempt number to that attempt's outcome, the snapshot
  API is a pair of a trigger response and a per-poll response, and the
  classifier is a function from its three prompt inputs to an optional verdict.
* Machine numbers that the code uses (`results_cnt`, `rank`,
  `lastProcessedIndex`) are modelled as `Int`; the backoff delays computed with
  `Math.pow(1.5, k)` are exact in IEEE doubles for the exponents that can occur
  (k = 0..3), so they are modelled exactly in `Rat`.
* `async`/`await` and `setTimeout` sleeps have no observable effect on the
  values computed, so they are erased; loops bounded by an attempt counter are
  written as structural recursion on the remaining-attempts fuel so that every
  definition evaluates by `rfl`/`decide`.
-/

/-! ## Basic character-list utilities (used by the URL / regex embeddings) -/

/-- Strip a literal pattern from the front of a character list; `none` when the
list does not start with the pattern. -/
def stripPre : List Char → List Char → Option (List Char)
  | [], l => some l
  | _ :: _, [] => none
  | p :: ps, c :: cs => if c = p then stripPre ps cs else none

/-- Split a character list at the first occurrence of the literal "://"
(scheme separator of `new URL`); returns the part before and after it. -/
def splitSchemeSep : List Char → Option (List Char × List Char)
  | [] => none
  | c :: rest =>
    match stripPre [':', '/', '/'] (c :: rest) with
    | some after => some ([], after)
    | none =>
      match splitSchemeSep rest with
      | some pr => some (c :: pr.1, pr.2)
      | none => none

/-- Take characters until one of the stop characters (which is kept in the
remainder); models scanning a URL component. -/
def takeUntilStops (stops : List Char) : List Char → List Char × List Char
  | [] => ([], [])
  | c :: rest =>
    if c ∈ stops then ([], c :: rest)
    else
      let r := takeUntilStops stops rest
      (c :: r.1, r.2)

/-- Split a character list on a separator character, like JS `split(sep)`. -/
def splitOnChar (sep : Char) : List Char → List (List Char)
  | [] => [[]]
  | c :: rest =>
    let r := splitOnChar sep rest
    if c = sep then [] :: r
    else
      match r with
      | [] => [[c]]
      | h :: t => (c :: h) :: t

/-! ## URL model (the fragment of `new URL` the code relies on) -/

/-- The components of a parsed URL that `extractMainProfileLink` inspects:
`pathname` (with its leading slash) and the raw query string (what stands
after the first question mark, before any hash). -/
structure URLParts where
  host : String
  pathname : String
  query : String
deriving DecidableEq

/-- Embedding of `new URL(link)` restricted to the `scheme://host/path?query`
shape the pipeline produces; a string without a scheme separator, with an
empty scheme or with an empty host throws in JS and is `none` here. -/
def parseURL (s : String) : Option URLParts :=
  match splitSchemeSep s.toList with
  | none => none
  | some pr =>
    if pr.1.isEmpty then none
    else
      let hostSplit := takeUntilStops ['/', '?', '#'] pr.2
      if hostSplit.1.isEmpty then none
      else
        let pathSplit := takeUntilStops ['?', '#'] hostSplit.2
        let query :=
          match pathSplit.2 with
          | '?' :: qs => (takeUntilStops ['#'] qs).1
          | _ => []
        some ⟨String.mk hostSplit.1, String.mk pathSplit.1, String.mk query⟩

/-- JS `url.pathname.split('/').filter(Boolean)`: the non-empty path
segments. -/
def pathSegments (u : URLParts) : List String :=
  ((splitOnChar '/' u.pathname.toList).filter (fun seg => !seg.isEmpty)).map
    String.mk

/-! ## Result Extractor (`processFounders.js` lines 151-193) -/

/-- One entry of the search payload's `organic` array; only the `link` field
is consumed by the code. -/
structure OrganicItem where
  link : Option String
deriving DecidableEq

/-- The parsed search payload shape `fetchWithRetry` returns: a JSON object
with an `organic` array (the zero-results marker is returned as
`organic = []`). -/
structure SearchData where
  organic : List OrganicItem
deriving DecidableEq

/-- JS `s.includes("x.com")`: substring scan for the literal pattern. -/
def containsXcom : List Char → Bool
  | [] => false
  | c :: rest =>
    match stripPre ['x', '.', 'c', 'o', 'm'] (c :: rest) with
    | some _ => true
    | none => containsXcom rest

/-- Embedding of `processSearchResults(data, ...)` (lines 152-169): keep the
organic links that are present, non-empty and contain "x.com"; `null` when the
payload is absent or no such link exists.  The founder/company name parameters
of the JS function are only used for logging and are omitted.  The JS
`.filter(item => item.link && item.link.includes('x.com')).map(item => item.link)`
is written as a filter followed by `filterMap (·.link)`, which extracts exactly
the retained links. -/
def processSearchResults (data : Option SearchData) : Option (List String) :=
  match data with
  | none => none
  | some d =>
    let xLinks :=
      (d.organic.filter fun item =>
        match item.link with
        | some l => !l.isEmpty && containsXcom l.toList
        | none => false).filterMap (fun item => item.link)
    if xLinks.isEmpty then none else some xLinks

/-- The predicate of the `links.find(...)` callback in
`extractMainProfileLink` (lines 175-183): the URL parses, its path has exactly
one non-empty segment, and `url.searchParams.toString()` is empty (modelled as
an empty raw query string); a URL that throws in the `try` yields `false`. -/
def isCanonicalLink (link : String) : Bool :=
  match parseURL link with
  | none => false
  | some u => (pathSegments u).length == 1 && u.query == ""

/-- Embedding of `extractMainProfileLink(links)` (lines 172-186): first link
satisfying `isCanonicalLink`, `null` for a null input or when none
qualifies. -/
def extractMainProfileLink (links : Option (List String)) : Option String :=
  match links with
  | none => none
  | some ls => ls.find? isCanonicalLink

/-- JS regex `[^/?]+` after the literal: take characters until '/' or '?'. -/
def takeHandleChars : List Char → List Char
  | [] => []
  | c :: rest => if c = '/' ∨ c = '?' then [] else c :: takeHandleChars rest

/-- Try to match the regex `x\.com\/([^/?]+)` at the head of the list:
the literal "x.com/" followed by at least one character other than '/'
and '?'; returns the capture group. -/
def matchHandleAt (l : List Char) : Option (List Char) :=
  match stripPre ['x', '.', 'c', 'o', 'm', '/'] l with
  | none => none
  | some rest =>
    let h := takeHandleChars rest
    if h.isEmpty then none else some h

/-- Left-to-right scan of `String.match` for `x\.com\/([^/?]+)`: the first
position where the pattern matches wins. -/
def scanForHandle : List Char → Option (List Char)
  | [] => none
  | c :: rest =>
    match matchHandleAt (c :: rest) with
    | some h => some h
    | none => scanForHandle rest

/-- Embedding of `extractHandle(url)` (lines 189-193): `null` for a
null/empty url (JS `if (!url)`), otherwise the capture group of
`url.match(/x\.com\/([^/?]+)/)` or `null` when the regex does not match. -/
def extractHandle (url : Option String) : Option String :=
  match url with
  | none => none
  | some s =>
    if s.isEmpty then none
    else
      match scanForHandle s.toList with
      | some h => some (String.mk h)
      | none => none

/-! ## Retrying Fetcher (`fetchWithRetry`, lines 70-149) -/

/-- The `RETRY_CONFIG` constant (lines 71-76).  The delays are exact in IEEE
doubles for every attempt the code can reach, so rationals model them
exactly. -/
structure RetryConfig where
  maxRetries : Nat
  initialDelay : ℚ
  maxDelay : ℚ
  backoffFactor : ℚ

/-- `RETRY_CONFIG = maxRetries 5, initialDelay 2000 ms, maxDelay 30000 ms,
backoffFactor 1.5`. -/
def RETRY_CONFIG : RetryConfig :=
  { maxRetries := 5, initialDelay := 2000, maxDelay := 30000,
    backoffFactor := 3 / 2 }

/-- The delay (line 139-142) computed after failed attempt `a`:
`Math.min(initialDelay * backoffFactor^(a-1), maxDelay)`. -/
def retryDelay (a : Nat) : ℚ :=
  min (RETRY_CONFIG.initialDelay * RETRY_CONFIG.backoffFactor ^ (a - 1))
    RETRY_CONFIG.maxDelay

/-- The `JSON.parse(response)` result, restricted to the fields the code
reads: `general.results_cnt` (absent when `general` or the counter is
missing) and `organic`.  `notJson` models a body that fails `JSON.parse`. -/
inductive SearchReply
  | notJson
  | json (results_cnt : Option Int) (organic : Option (List OrganicItem))
deriving DecidableEq

/-- Outcome of one proxied GET: the request may throw (network, timeout,
proxy error) or deliver a response body. -/
inductive FetchAttempt
  | netError
  | reply (r : SearchReply)
deriving DecidableEq

/-- The `try` block of `fetchWithRetry` after the response arrives
(lines 107-128): the zero-results marker (`general.results_cnt === 0`)
becomes `{organic: []}`; a payload with an `organic` field is returned as is;
anything else throws ("Response missing organic results") and is `none`,
which triggers the retry path. -/
def parseSearchResponse : SearchReply → Option SearchData
  | .notJson => none
  | .json cnt org =>
    if cnt = some 0 then some ⟨[]⟩
    else
      match org with
      | some items => some ⟨items⟩
      | none => none

/-- Outcome of one attempt of `fetchWithRetry`: `none` exactly when the
attempt ends in the `catch` (network error or parse failure). -/
def attemptResult : FetchAttempt → Option SearchData
  | .netError => none
  | .reply r => parseSearchResponse r

/-- Observable trace of one `fetchWithRetry(url)` call: the value returned to
the caller, the number of attempts performed, and the backoff delays awaited
between consecutive attempts. -/
structure FetchTrace where
  result : Option SearchData
  attempts : Nat
  delays : List ℚ
deriving DecidableEq

/-- The recursion of `fetchWithRetry` (lines 79-148).  `fuel` is the number of
attempts still allowed (`maxRetries - attempt + 1`), so the `attempt >=
RETRY_CONFIG.maxRetries` guard of line 134 is exactly `fuel = 0` after the
current attempt is spent. -/
def fetchGo (oracle : Nat → FetchAttempt) : Nat → Nat → FetchTrace
  | 0, _ => ⟨none, 0, []⟩
  | fuel + 1, attempt =>
    match attemptResult (oracle attempt) with
    | some payload => ⟨some payload, 1, []⟩
    | none =>
      if fuel = 0 then ⟨none, 1, []⟩
      else
        let t := fetchGo oracle fuel (attempt + 1)
        ⟨t.result, t.attempts + 1, retryDelay attempt :: t.delays⟩

/-- Embedding of `fetchWithRetry(url)` with its default `attempt = 1`.  The
oracle gives the outcome of each numbered attempt of the GET for the fixed
url; the function is total, so no exception ever reaches the caller. -/
def fetchWithRetry (oracle : Nat → FetchAttempt) : FetchTrace :=
  fetchGo oracle RETRY_CONFIG.maxRetries 1

/-! ## Snapshot Poller (`getProfileDescription`, lines 195-312) -/

/-- One element of the JSON array posted to the dataset trigger endpoint
(lines 208-211). -/
structure TriggerReq where
  url : String
  max_number_of_posts : Nat
deriving DecidableEq

/-- One profile row of a materialized snapshot; the code reads `url` and
`biography`. -/
structure ProfileRow where
  url : Option String
  biography : Option String
deriving DecidableEq

/-- Outcome of one poll of the snapshot endpoint: the GET may throw, or the
body is the `status:"running"` marker, an array of rows, or some other
terminal JSON value (not an array, no running status). -/
inductive PollReply
  | pollError (msg : String)
  | running
  | rows (rs : List ProfileRow)
  | nonArray
deriving DecidableEq

/-- The value of the `finalJSON` variable of the polling loop. -/
inductive FinalJson
  | null
  | running
  | arr (rs : List ProfileRow)
  | other
deriving DecidableEq

/-- The snapshot dataset API as seen by one `getProfileDescription` call:
the trigger response (snapshot id or a thrown error) and the response to each
numbered poll. -/
structure SnapshotOracle where
  trigger : List TriggerReq → Except String String
  poll : Nat → PollReply

/-- The polling loop's attempt budget (`maxAttempts`, line 232). -/
def SNAPSHOT_MAX_ATTEMPTS : Nat := 10

/-- The `while` loop of lines 234-261.  `fuel` is `maxAttempts - attempts`,
so the loop guard `attempts < maxAttempts` is `fuel > 0` and the rethrow
guard `attempts >= maxAttempts` of line 257 is `fuel = 0` after the current
poll.  A poll error below the budget leaves `finalJSON` unchanged; a reply
overwrites it.  `.error` is an exception propagating out of the loop. -/
def pollLoop (poll : Nat → PollReply) :
    Nat → Nat → FinalJson → Except String FinalJson
  | 0, _, fj => .ok fj
  | fuel + 1, attempts, fj =>
    if fj = FinalJson.null ∨ fj = FinalJson.running then
      match poll (attempts + 1) with
      | .pollError msg =>
        if fuel = 0 then .error msg
        else pollLoop poll fuel (attempts + 1) fj
      | .running => pollLoop poll fuel (attempts + 1) .running
      | .rows rs => pollLoop poll fuel (attempts + 1) (.arr rs)
      | .nonArray => pollLoop poll fuel (attempts + 1) .other
    else .ok fj

/-- The body of the outer `try` of `getProfileDescription` up to the point
where `finalJSON` is known to be terminal (lines 208-265): trigger the batch
job for the first 20 handles, run the polling loop, and throw
"Failed to get profile data after maximum attempts" when `finalJSON` is still
null or running. -/
def runSnapshot (oracle : SnapshotOracle) (handles : List String) :
    Except String FinalJson :=
  match oracle.trigger
      ((handles.take 20).map fun h =>
        ⟨"https://x.com/" ++ h, 10⟩) with
  | .error msg => .error msg
  | .ok _snapshotId =>
    match pollLoop oracle.poll SNAPSHOT_MAX_ATTEMPTS 0 .null with
    | .error msg => .error msg
    | .ok fj =>
      if fj = FinalJson.null ∨ fj = FinalJson.running then
        .error "Failed to get profile data after maximum attempts"
      else .ok fj

/-- The per-handle profile record of the Snapshot Poller. -/
structure ProfileData where
  status : String
  canDm : Bool
  description : String
  reason : String
deriving DecidableEq

/-- The success entry built for a snapshot row (lines 275-280). -/
def successEntry (row : ProfileRow) : ProfileData :=
  { status := "success", canDm := true,
    description := row.biography.getD "", reason := "DMs are open" }

/-- The synthesized entry for a requested handle with no row in the snapshot
(lines 287-292). -/
def notFoundEntry : ProfileData :=
  { status := "error", canDm := true, description := "",
    reason := "Profile data not found but assuming DMs are open" }

/-- The synthesized entry of the outer `catch` (lines 298-310). -/
def apiErrorEntry (msg : String) : ProfileData :=
  { status := "error", canDm := true, description := "",
    reason := "API Error: " ++ msg }

/-- One step of the `forEach` of lines 271-282: key the row by the handle
extracted from its url; a later row for the same handle overwrites an earlier
one, exactly like the JS object assignment; a row whose url yields no handle
is skipped. -/
def profileMapStep (m : String → Option ProfileData) (row : ProfileRow) :
    String → Option ProfileData :=
  match extractHandle row.url with
  | some h => fun k => if k = h then some (successEntry row) else m k
  | none => m

/-- The `profileMap` built by lines 268-283.  A terminal non-array leaves the
map empty (line 270's `Array.isArray` guard). -/
def buildProfileMap : FinalJson → String → Option ProfileData
  | .arr rows => rows.foldl profileMapStep (fun _ => none)
  | _ => fun _ => none

/-- Embedding of `getProfileDescription(handles)` (lines 196-312) for an
array argument (the non-array branch only wraps a single handle into an
array).  Empty input returns `[]` before any network call (line 201).  The
function is total: every failure of the trigger or of the polling degrades to
one synthesized `apiErrorEntry` per input handle, and on success every input
handle gets its map entry or `notFoundEntry`, in input order (lines
286-293). -/
def getProfileDescription (oracle : SnapshotOracle) (handles : List String) :
    List ProfileData :=
  if handles.isEmpty then []
  else
    match runSnapshot oracle handles with
    | .error msg => handles.map fun _ => apiErrorEntry msg
    | .ok fj =>
      let profileMap := buildProfileMap fj
      handles.map fun h => (profileMap h).getD notFoundEntry

/-! ## Batch Orchestrator (`processBatch`, lines 342-484) -/

/-- An input record prepared from a CSV row (lines 619-630). -/
structure InputItem where
  founderName : String
  companyName : String
  email : String
  searchQuery : String
deriving DecidableEq

/-- A record that survived search and extraction, held pending for the
batch's handle-resolution phase (lines 402-406). -/
structure HandleItem where
  item : InputItem
  handle : String
  mainProfileUrl : String
deriving DecidableEq

/-- The classifier's parsed JSON verdict (`analyzeFounderProfile`). -/
structure Verdict where
  role : String
  rank : Int
  confidence_reason : String
deriving DecidableEq

/-- The external world of one `processBatch` call: the search backend keyed
by request URL and attempt number, the snapshot dataset API, and the
classifier keyed by its prompt inputs (handle, description, company);
`analyzeFounderProfile` catches every internal failure and returns `null`,
modelled by `Option`. -/
structure World where
  search : String → Nat → FetchAttempt
  snapshot : SnapshotOracle
  classify : String → String → String → Option Verdict

/-- A ResultRecord accumulated in `batchResults`; fields that a given code
path does not set are `none` (absent in the JS object).  The
`processed_at` wall-clock timestamp carries no verifiable content and is
omitted. -/
structure ResultRecord where
  name : String
  company : String
  email : String
  status : String
  reason : Option String
  handle : Option String
  profile_url : Option String
  dm_status : Option String
  description : Option String
  role : Option String
  rank : Option Int
  confidence_reason : Option String
deriving DecidableEq

/-- A record with only the identifying fields and a status. -/
def baseRecord (item : InputItem) (status : String) : ResultRecord :=
  { name := item.founderName, company := item.companyName,
    email := item.email, status := status, reason := none, handle := none,
    profile_url := none, dm_status := none, description := none,
    role := none, rank := none, confidence_reason := none }

/-- The search URL built on line 353. -/
def searchUrl (item : InputItem) : String :=
  "https://www.google.com/search?q=" ++ item.searchQuery ++ "&brd_json=1"

/-- The first loop's body for one item (lines 348-419): search, link
extraction, canonical-profile pick and handle extraction, with the three
early `failed` exits; a surviving item becomes a pending `HandleItem`.
Every function called here is exception-free (`fetchWithRetry` returns null
after exhausting retries; the extractors are pure and catch internally), so
the `catch` of lines 408-418 that would emit an `error` record is
unreachable. -/
def phase1Step (world : World) (item : InputItem) :
    Except ResultRecord HandleItem :=
  match (fetchWithRetry (world.search (searchUrl item))).result with
  | none =>
    .error { baseRecord item "failed" with
              reason := some "No search results found" }
  | some searchData =>
    match extractMainProfileLink (processSearchResults (some searchData)) with
    | none =>
      .error { baseRecord item "failed" with
                reason := some "No Twitter profile found" }
    | some mainProfileUrl =>
      match extractHandle (some mainProfileUrl) with
      | none =>
        .error { baseRecord item "failed" with
                  reason := some "Could not extract Twitter handle",
                  profile_url := some mainProfileUrl }
      | some handle => .ok ⟨item, handle, mainProfileUrl⟩

/-- The whole first loop: early `failed` records are pushed to
`batchResults` in input order, pending items to `handleItems` in input
order. -/
def phase1Go (world : World) : List InputItem →
    List ResultRecord × List HandleItem
  | [] => ([], [])
  | item :: rest =>
    let r := phase1Go world rest
    match phase1Step world item with
    | .error rcd => (rcd :: r.1, r.2)
    | .ok h => (r.1, h :: r.2)

/-- Placeholder values for the positional `handleItems[i]` /
`profileDataArray[i]` indexing of the second loop; they are never selected
because both lists have the same length. -/
def defaultHandleItem : HandleItem := ⟨⟨"", "", "", ""⟩, "", ""⟩

/-- Placeholder ProfileData for out-of-range indexing (never selected). -/
def defaultProfileData : ProfileData := ⟨"", false, "", ""⟩

/-- The second loop (lines 421-481): resolve all pending handles with one
`getProfileDescription` call, then assemble one `processed` record per
pending item, pairing item `i` with `profileDataArray[i]`.  `dm_status` is
the literal "open" (line 445); `description` is
`profileData.description || ""`, which on strings is the identity.  The
classifier verdict, when present, adds the role/rank/confidence fields.
The 2-second pre-call delay (line 427) has no effect on the computed values.
Nothing in the loop body can throw (`analyzeFounderProfile` catches
internally and the positional pairing never misses), so the `catch` of lines
467-478 that would emit an `error` record is unreachable. -/
def phase2 (world : World) (pending : List HandleItem) : List ResultRecord :=
  if pending.isEmpty then []
  else
    let profileDataArray :=
      getProfileDescription world.snapshot (pending.map fun h => h.handle)
    (List.range pending.length).map fun i =>
      let hi := pending.getD i defaultHandleItem
      let pd := profileDataArray.getD i defaultProfileData
      let base : ResultRecord :=
        { name := hi.item.founderName, company := hi.item.companyName,
          email := hi.item.email, status := "processed", reason := none,
          handle := some hi.handle, profile_url := some hi.mainProfileUrl,
          dm_status := some "open", description := some pd.description,
          role := none, rank := none, confidence_reason := none }
      match world.classify hi.handle pd.description hi.item.companyName with
      | some a =>
        { base with role := some a.role, rank := some a.rank,
                    confidence_reason := some a.confidence_reason }
      | none => base

/-- Embedding of `processBatch(batch, batchIndex)` (lines 342-484): the early
records of the first loop, followed by the processed records of the second
loop (`batchIndex` is unused by the JS function body). -/
def processBatch (world : World) (batch : List InputItem) :
    List ResultRecord :=
  let p := phase1Go world batch
  p.1 ++ phase2 world p.2

/-- The early outcome of one item, as an option (used to state how the two
loops group the output). -/
def earlyPart (world : World) (item : InputItem) : Option ResultRecord :=
  match phase1Step world item with
  | .error r => some r
  | .ok _ => none

/-- The pending outcome of one item, as an option. -/
def pendingPart (world : World) (item : InputItem) : Option HandleItem :=
  match phase1Step world item with
  | .ok h => some h
  | .error _ => none

/-! ## Progress Checkpoint (`loadProgress` / `saveProgress`, lines 572-590) -/

/-- Contents of `progress.json`: either the JSON object the code itself
writes, or an unreadable/unparseable file. -/
inductive ProgressFile
  | valid (lastProcessedIndex : Int)
  | unreadable
deriving DecidableEq

/-- The checkpoint file slot; `none` models a missing `progress.json`. -/
structure CheckpointFS where
  progress : Option ProgressFile
deriving DecidableEq

/-- The parsed checkpoint state. -/
structure ProgressState where
  lastProcessedIndex : Int
deriving DecidableEq

/-- Embedding of `loadProgress()` (lines 573-582): parse the file when it
exists; a missing file, a read error or a parse error all fall through to
the default `lastProcessedIndex 0`. -/
def loadProgress (fs : CheckpointFS) : ProgressState :=
  match fs.progress with
  | some (.valid n) => ⟨n⟩
  | some .unreadable => ⟨0⟩
  | none => ⟨0⟩

/-- Embedding of `saveProgress(lastProcessedIndex)` (lines 584-590):
overwrite the file with the serialized state; `writeOk = false` models a
thrown `writeFileSync`, which the code catches, leaving the file as it
was. -/
def saveProgress (writeOk : Bool) (n : Int) (fs : CheckpointFS) :
    CheckpointFS :=
  if writeOk then { progress := some (.valid n) } else fs

/-! ## Concrete inputs and worlds used by counterexamples and witnesses -/

/-- A concrete input record. -/
def itemJane : InputItem := ⟨"Jane Doe", "Acme", "jane", "janequery"⟩

/-- A concrete input record whose search succeeds in the mixed world. -/
def itemAlice : InputItem := ⟨"Alice", "Acme", "alice", "alicequery"⟩

/-- A concrete input record whose search always fails in the mixed world. -/
def itemBob : InputItem := ⟨"Bob", "Bobco", "bob", "bobquery"⟩

/-- A snapshot API whose job completes immediately with no rows. -/
def snapshotEmptyRows : SnapshotOracle :=
  ⟨fun _ => .ok "snap", fun _ => .rows []⟩

/-- A snapshot API whose job reports running on every poll. -/
def snapshotAlwaysRunning : SnapshotOracle :=
  ⟨fun _ => .ok "snap", fun _ => .running⟩

/-- A world whose search backend answers every request with the explicit
zero-organic-results marker on the first attempt. -/
def worldZeroResults : World :=
  ⟨fun _ _ => .reply (.json (some 0) none), snapshotEmptyRows,
   fun _ _ _ => none⟩

/-- A world where Alice's search finds her bare profile link on the first
attempt and every other search request fails on every attempt. -/
def worldMixed : World :=
  ⟨fun url _ =>
    if url = searchUrl itemAlice then
      .reply (.json none (some [⟨some "https://x.com/alice"⟩]))
    else .netError,
   snapshotEmptyRows, fun _ _ _ => none⟩

/-- A world whose search backend fails every attempt of every request. -/
def worldAllFail : World :=
  ⟨fun _ _ => .netError, snapshotEmptyRows, fun _ _ _ => none⟩

/-- An all-failing attempt oracle for the Retrying Fetcher. -/
def oracleAllFail : Nat → FetchAttempt := fun _ => .netError

/-! ## Helper lemmas -/

/-- Indexing a mapped list below its length applies the function to the
corresponding source element. -/
theorem getD_map_of_lt {α β : Type} (f : α → β) (l : List α) (d : β)
    (d2 : α) : ∀ i, i < l.length → (l.map f).getD i d = f (l.getD i d2) := by
  induction l with
  | nil => intro i hi; simp at hi
  | cons x xs ih =>
    intro i hi
    cases i with
    | zero => simp
    | succ j => simpa using ih j (by simpa using hi)

/-! ## Claims C8, C9 -/

/-- Claim C8: extractHandle returns the single path segment following the
target domain and null when the URL does not match: "https://x.com/alice"
yields "alice", "https://example.com/alice" yields null, and a null or empty
input yields null. -/
theorem extractHandle_spec :
    extractHandle (some "https://x.com/alice") = some "alice"
    ∧ extractHandle (some "https://example.com/alice") = none
    ∧ extractHandle none = none
    ∧ extractHandle (some "") = none := by
  refine ⟨by decide, by decide, rfl, by decide⟩

/-- Claim C9: checkpoint round-trip: for every integer n, a successful
saveProgress n followed by loadProgress returns lastProcessedIndex n; a
missing or unreadable checkpoint file loads as lastProcessedIndex 0. -/
theorem progress_checkpoint_roundtrip :
    (∀ (n : Int) (fs : CheckpointFS),
        loadProgress (saveProgress true n fs) = ⟨n⟩)
    ∧ loadProgress ⟨none⟩ = ⟨0⟩
    ∧ loadProgress ⟨some ProgressFile.unreadable⟩ = ⟨0⟩ := by
  exact ⟨fun n fs => rfl, rfl, rfl⟩

/-! ## Retrying Fetcher lemmas -/

/-- The fetch recursion never performs more attempts than it has fuel. -/
theorem fetchGo_attempts_le (oracle : Nat → FetchAttempt) :
    ∀ fuel attempt, (fetchGo oracle fuel attempt).attempts ≤ fuel := by
  intro fuel
  induction fuel with
  | zero => intro attempt; simp [fetchGo]
  | succ n ih =>
    intro attempt
    simp only [fetchGo]
    cases attemptResult (oracle attempt) with
    | some payload => simp
    | none =>
      by_cases hn : n = 0
      · simp [hn]
      · simpa [hn] using Nat.succ_le_succ (ih (attempt + 1))

/-- With positive fuel the fetch recursion performs at least one attempt. -/
theorem fetchGo_attempts_pos (oracle : Nat → FetchAttempt) :
    ∀ fuel attempt, 1 ≤ fuel → 1 ≤ (fetchGo oracle fuel attempt).attempts := by
  intro fuel
  cases fuel with
  | zero => intro attempt h; omega
  | succ n =>
    intro attempt _
    simp only [fetchGo]
    cases attemptResult (oracle attempt) with
    | some payload => simp
    | none =>
      by_cases hn : n = 0
      · simp [hn]
      · simp [hn]

/-- The delay trace is exactly one backoff delay per retried attempt: after
failed attempt `attempt + k` the code waits `retryDelay (attempt + k)`. -/
theorem fetchGo_delays (oracle : Nat → FetchAttempt) :
    ∀ fuel attempt, (fetchGo oracle fuel attempt).delays =
      (List.range ((fetchGo oracle fuel attempt).attempts - 1)).map
        (fun k => retryDelay (attempt + k)) := by
  intro fuel
  induction fuel with
  | zero => intro attempt; simp [fetchGo]
  | succ n ih =>
    intro attempt
    simp only [fetchGo]
    cases attemptResult (oracle attempt) with
    | some payload => simp
    | none =>
      by_cases hn : n = 0
      · simp [hn]
      · have hpos := fetchGo_attempts_pos oracle n (attempt + 1) (by omega)
        obtain ⟨m, hm⟩ :
            ∃ m, (fetchGo oracle n (attempt + 1)).attempts = m + 1 :=
          ⟨(fetchGo oracle n (attempt + 1)).attempts - 1, by omega⟩
        rw [if_neg hn]
        simp only [ih (attempt + 1), hm]
        simp [List.range_succ_eq_map, List.map_map]
        intro a _
        congr 1
        omega

/-- When every attempt in the fuel window fails, the fetch returns null after
spending all its attempts. -/
theorem fetchGo_all_fail (oracle : Nat → FetchAttempt) :
    ∀ fuel attempt,
      (∀ a, attempt ≤ a → a < attempt + fuel → attemptResult (oracle a) = none) →
      (fetchGo oracle fuel attempt).result = none
      ∧ (fetchGo oracle fuel attempt).attempts = fuel := by
  intro fuel
  induction fuel with
  | zero => intro attempt _; simp [fetchGo]
  | succ n ih =>
    intro attempt h
    have hcur : attemptResult (oracle attempt) = none :=
      h attempt (by omega) (by omega)
    simp only [fetchGo, hcur]
    by_cases hn : n = 0
    · simp [hn]
    · have := ih (attempt + 1) (fun a ha1 ha2 => h a (by omega) (by omega))
      simp [hn, this.1, this.2]

/-- When attempt `k` is the first to succeed inside the fuel window, the
fetch returns its parsed payload after exactly `k - attempt + 1` attempts. -/
theorem fetchGo_first_success (oracle : Nat → FetchAttempt) :
    ∀ fuel attempt k payload, attempt ≤ k → k < attempt + fuel →
      attemptResult (oracle k) = some payload →
      (∀ j, attempt ≤ j → j < k → attemptResult (oracle j) = none) →
      (fetchGo oracle fuel attempt).result = some payload
      ∧ (fetchGo oracle fuel attempt).attempts = k + 1 - attempt := by
  intro fuel
  induction fuel with
  | zero => intro attempt k payload h1 h2; omega
  | succ n ih =>
    intro attempt k payload h1 h2 hk hfail
    by_cases heq : attempt = k
    · subst heq
      simp [fetchGo, hk]
    · have hlt : attempt < k := by omega
      have hcur : attemptResult (oracle attempt) = none :=
        hfail attempt (by omega) hlt
      have hn : n ≠ 0 := by omega
      have := ih (attempt + 1) k payload (by omega) (by omega) hk
        (fun j hj1 hj2 => hfail j (by omega) hj2)
      simp only [fetchGo, hcur, if_neg hn]
      refine ⟨this.1, ?_⟩
      simp only [this.2]
      omega

/-- Claim C2: for every sequence of attempt outcomes, fetchWithRetry performs
between 1 and 5 attempts; after each failed attempt a (numbered from 1) it
waits `min(2000 * 1.5^(a-1), 30000)` milliseconds before the retry; when all
5 attempts fail it returns null (and, being total, never raises); when an
attempt succeeds first, it returns that attempt's parsed payload, where the
zero-results marker parses to the empty result set and a payload with an
organic list parses to itself. -/
theorem fetchWithRetry_retry_contract (oracle : Nat → FetchAttempt) :
    1 ≤ (fetchWithRetry oracle).attempts
    ∧ (fetchWithRetry oracle).attempts ≤ RETRY_CONFIG.maxRetries
    ∧ (fetchWithRetry oracle).delays =
        (List.range ((fetchWithRetry oracle).attempts - 1)).map
          (fun k => retryDelay (k + 1))
    ∧ ((∀ a, 1 ≤ a → a ≤ RETRY_CONFIG.maxRetries →
          attemptResult (oracle a) = none) →
        (fetchWithRetry oracle).result = none
        ∧ (fetchWithRetry oracle).attempts = RETRY_CONFIG.maxRetries)
    ∧ (∀ k payload, 1 ≤ k → k ≤ RETRY_CONFIG.maxRetries →
        attemptResult (oracle k) = some payload →
        (∀ j, 1 ≤ j → j < k → attemptResult (oracle j) = none) →
        (fetchWithRetry oracle).result = some payload
        ∧ (fetchWithRetry oracle).attempts = k)
    ∧ (∀ a, retryDelay a = min (2000 * (3 / 2 : ℚ) ^ (a - 1)) 30000)
    ∧ (∀ org, attemptResult (.reply (.json (some 0) org)) = some ⟨[]⟩)
    ∧ (∀ cnt items, cnt ≠ some 0 →
        attemptResult (.reply (.json cnt (some items))) = some ⟨items⟩) := by
  refine ⟨?_, ?_, ?_, ?_, ?_, ?_, ?_, ?_⟩
  · exact fetchGo_attempts_pos oracle RETRY_CONFIG.maxRetries 1 (by decide)
  · exact fetchGo_attempts_le oracle RETRY_CONFIG.maxRetries 1
  · have h := fetchGo_delays oracle RETRY_CONFIG.maxRetries 1
    rw [fetchWithRetry, h]
    apply List.map_congr_left
    intro a _
    congr 1
    omega
  · intro h
    have hmax : RETRY_CONFIG.maxRetries = 5 := rfl
    exact fetchGo_all_fail oracle RETRY_CONFIG.maxRetries 1
      (fun a ha1 ha2 => h a ha1 (by omega))
  · intro k payload hk1 hk5 hsucc hfail
    have hmax : RETRY_CONFIG.maxRetries = 5 := rfl
    have := fetchGo_first_success oracle RETRY_CONFIG.maxRetries 1 k payload
      hk1 (by omega) hsucc (fun j hj1 hj2 => hfail j hj1 hj2)
    refine ⟨this.1, ?_⟩
    show (fetchGo oracle RETRY_CONFIG.maxRetries 1).attempts = k
    rw [this.2]
    omega
  · intro a; rfl
  · intro org; rfl
  · intro cnt items h
    simp [attemptResult, parseSearchResponse, h]

/-- Witness for claim C2: with an oracle that fails every attempt, the call
returns null after exactly 5 attempts. -/
theorem fetchWithRetry_retry_contract_witness :
    (fetchWithRetry oracleAllFail).result = none
    ∧ (fetchWithRetry oracleAllFail).attempts = 5 := by
  exact (fetchWithRetry_retry_contract oracleAllFail).2.2.2.1
    (fun a h1 h2 => rfl)

/-! ## Snapshot Poller lemmas -/

/-- If every poll inside the remaining budget errors or reports running, the
polling loop either rethrows an error or exits with a still-null/running
final value. -/
theorem pollLoop_no_terminal (poll : Nat → PollReply) :
    ∀ fuel attempts fj,
      (∀ a, attempts < a → a ≤ attempts + fuel →
        (∃ m, poll a = .pollError m) ∨ poll a = .running) →
      (fj = FinalJson.null ∨ fj = FinalJson.running) →
      (∃ m, pollLoop poll fuel attempts fj = .error m)
      ∨ (∃ fj2, pollLoop poll fuel attempts fj = .ok fj2
          ∧ (fj2 = FinalJson.null ∨ fj2 = FinalJson.running)) := by
  intro fuel
  induction fuel with
  | zero =>
    intro attempts fj _ hfj
    exact Or.inr ⟨fj, rfl, hfj⟩
  | succ n ih =>
    intro attempts fj h hfj
    have hnext := h (attempts + 1) (by omega) (by omega)
    rcases hnext with ⟨m, hm⟩ | hr
    · simp only [pollLoop, if_pos hfj, hm]
      by_cases hn : n = 0
      · exact Or.inl ⟨m, by rw [if_pos hn]⟩
      · rw [if_neg hn]
        exact ih (attempts + 1) fj
          (fun a ha1 ha2 => h a (by omega) (by omega)) hfj
    · simp only [pollLoop, if_pos hfj, hr]
      exact ih (attempts + 1) .running
        (fun a ha1 ha2 => h a (by omega) (by omega)) (Or.inr rfl)

/-- Reduction of one fold step when the row's url yields a handle. -/
theorem profileMapStep_some (m : String → Option ProfileData)
    (row : ProfileRow) (h2 : String)
    (hurl : extractHandle row.url = some h2) (k : String) :
    profileMapStep m row k =
      if k = h2 then some (successEntry row) else m k := by
  simp [profileMapStep, hurl]

/-- Reduction of one fold step when the row's url yields no handle. -/
theorem profileMapStep_noHandle (m : String → Option ProfileData)
    (row : ProfileRow) (hurl : extractHandle row.url = none) (k : String) :
    profileMapStep m row k = m k := by
  simp [profileMapStep, hurl]

/-- A handle with no matching snapshot row is absent from the profile map
(fold invariant). -/
theorem foldl_profileMapStep_none (hd : String) :
    ∀ (rows : List ProfileRow) (m : String → Option ProfileData),
      (∀ row ∈ rows, extractHandle row.url ≠ some hd) →
      m hd = none →
      (rows.foldl profileMapStep m) hd = none := by
  intro rows
  induction rows with
  | nil => intro m _ hm; simpa using hm
  | cons row rest ih =>
    intro m hrows hm
    simp only [List.foldl_cons]
    apply ih
    · intro r hr; exact hrows r (List.mem_cons_of_mem row hr)
    · have hne : extractHandle row.url ≠ some hd :=
        hrows row (List.mem_cons_self row rest)
      cases hurl : extractHandle row.url with
      | none => rw [profileMapStep_noHandle m row hurl]; exact hm
      | some h2 =>
        have hne2 : ¬hd = h2 := by
          intro he
          exact hne (by rw [hurl, he])
        rw [profileMapStep_some m row h2 hurl, if_neg hne2]
        exact hm

/-- A handle absent from the snapshot rows gets no map entry. -/
theorem buildProfileMap_eq_none (rows : List ProfileRow) (hd : String)
    (hnone : ∀ row ∈ rows, extractHandle row.url ≠ some hd) :
    buildProfileMap (.arr rows) hd = none :=
  foldl_profileMapStep_none hd rows (fun _ => none) hnone rfl

/-- Every entry the profile-map fold can produce has canDm true (fold
invariant). -/
theorem foldl_profileMapStep_canDm :
    ∀ (rows : List ProfileRow) (m : String → Option ProfileData),
      (∀ k pd, m k = some pd → pd.canDm = true) →
      ∀ k pd, (rows.foldl profileMapStep m) k = some pd → pd.canDm = true := by
  intro rows
  induction rows with
  | nil => intro m hm; simpa using hm
  | cons row rest ih =>
    intro m hm
    simp only [List.foldl_cons]
    apply ih
    intro k pd hk
    cases hurl : extractHandle row.url with
    | none =>
      rw [profileMapStep_noHandle m row hurl] at hk
      exact hm k pd hk
    | some h2 =>
      rw [profileMapStep_some m row h2 hurl] at hk
      by_cases hkh : k = h2
      · rw [if_pos hkh] at hk
        cases hk
        rfl
      · rw [if_neg hkh] at hk
        exact hm k pd hk

/-- Every entry of the built profile map has canDm true. -/
theorem buildProfileMap_canDm (fj : FinalJson) (k : String)
    (pd : ProfileData) (h : buildProfileMap fj k = some pd) :
    pd.canDm = true := by
  cases fj with
  | arr rows =>
    exact foldl_profileMapStep_canDm rows (fun _ => none) (by simp) k pd h
  | null => simp [buildProfileMap] at h
  | running => simp [buildProfileMap] at h
  | other => simp [buildProfileMap] at h

/-- Claim C3: getProfileDescription returns exactly one ProfileData per input
handle, positionally aligned with the input list (for any length, including
more than 20 handles); on the success path the entry at position i is the
profile-map entry of handle i, and a handle for which the snapshot returned
no row receives the synthesized not-found entry in its position rather than
being dropped. -/
theorem getProfileDescription_alignment (oracle : SnapshotOracle)
    (handles : List String) :
    (getProfileDescription oracle handles).length = handles.length
    ∧ (∀ i, i < handles.length →
        (getProfileDescription oracle handles).getD i defaultProfileData =
          (match runSnapshot oracle handles with
           | .error msg => apiErrorEntry msg
           | .ok fj =>
             (buildProfileMap fj (handles.getD i "")).getD notFoundEntry))
    ∧ (∀ i rows, i < handles.length →
        runSnapshot oracle handles = .ok (.arr rows) →
        (∀ row ∈ rows, extractHandle row.url ≠ some (handles.getD i "")) →
        (getProfileDescription oracle handles).getD i defaultProfileData =
          notFoundEntry) := by
  by_cases hemp : handles.isEmpty
  · have : handles = [] := List.isEmpty_iff.mp hemp
    subst this
    refine ⟨by simp [getProfileDescription], ?_, ?_⟩
    · intro i hi; simp at hi
    · intro i rows hi; simp at hi
  · have hlen :
        ∀ i, i < handles.length →
          (getProfileDescription oracle handles).getD i defaultProfileData =
            (match runSnapshot oracle handles with
             | .error msg => apiErrorEntry msg
             | .ok fj =>
               (buildProfileMap fj (handles.getD i "")).getD
                 notFoundEntry) := by
      intro i hi
      simp only [getProfileDescription, if_neg hemp]
      cases hrun : runSnapshot oracle handles with
      | error msg => exact getD_map_of_lt _ handles _ "" i hi
      | ok fj => exact getD_map_of_lt _ handles _ "" i hi
    refine ⟨?_, hlen, ?_⟩
    · simp only [getProfileDescription, if_neg hemp]
      cases runSnapshot oracle handles <;> simp
    · intro i rows hi hrun hnone
      have hpos := hlen i hi
      rw [hrun] at hpos
      rw [hpos]
      show (buildProfileMap (FinalJson.arr rows) (handles.getD i "")).getD
        notFoundEntry = notFoundEntry
      rw [buildProfileMap_eq_none rows _ hnone]
      rfl

/-- Witness for claim C3: with a snapshot that materializes an empty row
array, the single requested handle gets the not-found entry in its
position. -/
theorem getProfileDescription_alignment_witness :
    (getProfileDescription snapshotEmptyRows ["alice"]).getD 0
      defaultProfileData = notFoundEntry := by
  exact (getProfileDescription_alignment snapshotEmptyRows ["alice"]).2.2 0 []
    (by decide) rfl (by simp)

/-- When the trigger throws or the job never reaches a terminal state inside
the poll budget, the whole resolution fails with a thrown message. -/
theorem runSnapshot_error_of_no_terminal (oracle : SnapshotOracle)
    (handles : List String)
    (hfail : (∃ m, oracle.trigger
        ((handles.take 20).map fun h => ⟨"https://x.com/" ++ h, 10⟩) =
          .error m)
      ∨ ∀ a, 1 ≤ a → a ≤ SNAPSHOT_MAX_ATTEMPTS →
          (∃ m, oracle.poll a = .pollError m) ∨ oracle.poll a = .running) :
    ∃ msg, runSnapshot oracle handles = .error msg := by
  rcases hfail with ⟨m, hm⟩ | hpolls
  · exact ⟨m, by rw [runSnapshot, hm]⟩
  · rw [runSnapshot]
    cases htr : oracle.trigger
        ((handles.take 20).map fun h => ⟨"https://x.com/" ++ h, 10⟩) with
    | error m => exact ⟨m, rfl⟩
    | ok sid =>
      have := pollLoop_no_terminal oracle.poll SNAPSHOT_MAX_ATTEMPTS 0
        FinalJson.null
        (fun a ha1 ha2 => hpolls a (by omega) (by simpa using ha2))
        (Or.inl rfl)
      rcases this with ⟨m, hm⟩ | ⟨fj2, hfj2, hnr⟩
      · exact ⟨m, by rw [hm]⟩
      · refine ⟨"Failed to get profile data after maximum attempts", ?_⟩
        rw [hfj2]
        simp [hnr]

/-- Claim C4: getProfileDescription never propagates an exception (it is a
total function of its oracles); when the snapshot job never reaches a
terminal state within the 10 poll attempts, or the trigger or the final poll
errors, it returns one synthesized error ProfileData per input handle, each
with canDm true. -/
theorem getProfileDescription_error_degradation (oracle : SnapshotOracle)
    (handles : List String)
    (hfail : (∃ m, oracle.trigger
        ((handles.take 20).map fun h => ⟨"https://x.com/" ++ h, 10⟩) =
          .error m)
      ∨ ∀ a, 1 ≤ a → a ≤ SNAPSHOT_MAX_ATTEMPTS →
          (∃ m, oracle.poll a = .pollError m) ∨ oracle.poll a = .running) :
    (getProfileDescription oracle handles).length = handles.length
    ∧ ∀ p ∈ getProfileDescription oracle handles,
        p.status = "error" ∧ p.canDm = true := by
  obtain ⟨msg, hmsg⟩ := runSnapshot_error_of_no_terminal oracle handles hfail
  by_cases hemp : handles.isEmpty
  · have : handles = [] := List.isEmpty_iff.mp hemp
    subst this
    exact ⟨by simp [getProfileDescription], by simp [getProfileDescription]⟩
  · have hout : getProfileDescription oracle handles =
        handles.map fun _ => apiErrorEntry msg := by
      simp [getProfileDescription, if_neg hemp, hmsg]
    refine ⟨by simp [hout], ?_⟩
    intro p hp
    rw [hout] at hp
    obtain ⟨h, _, rfl⟩ := List.mem_map.mp hp
    exact ⟨rfl, rfl⟩

/-- Witness for claim C4: a job that still reports running at every poll
degrades to a length-preserving array whose entry is a canDm-true error
entry. -/
theorem getProfileDescription_error_degradation_witness :
    (getProfileDescription snapshotAlwaysRunning ["a"]).length = 1
    ∧ ((getProfileDescription snapshotAlwaysRunning ["a"]).getD 0
        defaultProfileData).status = "error"
    ∧ ((getProfileDescription snapshotAlwaysRunning ["a"]).getD 0
        defaultProfileData).canDm = true := by
  have h := getProfileDescription_error_degradation snapshotAlwaysRunning
    ["a"] (Or.inr fun a h1 h2 => Or.inr rfl)
  refine ⟨h.1, ?_, ?_⟩
  · exact (h.2 _ (by decide)).1
  · exact (h.2 _ (by decide)).2

/-! ## Batch Orchestrator lemmas -/

/-- The first loop classifies each item independently: its outputs are the
filterMaps of the per-item outcome over the batch, both in input order. -/
theorem phase1Go_eq (world : World) :
    ∀ batch : List InputItem,
      phase1Go world batch =
        (batch.filterMap (earlyPart world),
         batch.filterMap (pendingPart world)) := by
  intro batch
  induction batch with
  | nil => rfl
  | cons item rest ih =>
    simp only [phase1Go, ih, List.filterMap_cons]
    cases hstep : phase1Step world item with
    | error r => simp [earlyPart, pendingPart, hstep]
    | ok h => simp [earlyPart, pendingPart, hstep]

/-- Each item contributes to exactly one of the two phase-1 outputs. -/
theorem phase1Go_length (world : World) :
    ∀ batch : List InputItem,
      (phase1Go world batch).1.length + (phase1Go world batch).2.length =
        batch.length := by
  intro batch
  induction batch with
  | nil => rfl
  | cons item rest ih =>
    simp only [phase1Go]
    cases phase1Step world item with
    | error r => simp only [List.length_cons]; omega
    | ok h => simp only [List.length_cons]; omega

/-- Every early record of the first loop carries status "failed". -/
theorem phase1Step_error_status (world : World) (item : InputItem)
    (r : ResultRecord) (h : phase1Step world item = .error r) :
    r.status = "failed" := by
  unfold phase1Step at h
  split at h
  · injection h with h2
    subst h2
    rfl
  · split at h
    · injection h with h2
      subst h2
      rfl
    · split at h
      · injection h with h2
        subst h2
        rfl
      · exact Except.noConfusion h

/-- Membership version: every record in the first loop's output is
"failed". -/
theorem phase1Go_mem_status (world : World) (batch : List InputItem)
    (r : ResultRecord) (hr : r ∈ (phase1Go world batch).1) :
    r.status = "failed" := by
  rw [phase1Go_eq world batch] at hr
  simp only [List.mem_filterMap] at hr
  obtain ⟨item, _, hitem⟩ := hr
  unfold earlyPart at hitem
  cases hstep : phase1Step world item with
  | error r2 =>
    rw [hstep] at hitem
    simp only [Option.some.injEq] at hitem
    subst hitem
    exact phase1Step_error_status world item r2 hstep
  | ok h =>
    rw [hstep] at hitem
    simp at hitem

/-- The second loop emits exactly one record per pending item. -/
theorem phase2_length (world : World) (pending : List HandleItem) :
    (phase2 world pending).length = pending.length := by
  by_cases hemp : pending.isEmpty
  · have : pending = [] := List.isEmpty_iff.mp hemp
    subst this
    rfl
  · simp only [phase2, if_neg hemp, List.length_map, List.length_range]

/-- Every record of the second loop has status "processed" and dm_status
"open". -/
theorem phase2_mem (world : World) (pending : List HandleItem)
    (r : ResultRecord) (hr : r ∈ phase2 world pending) :
    r.status = "processed" ∧ r.dm_status = some "open" := by
  by_cases hemp : pending.isEmpty
  · have : pending = [] := List.isEmpty_iff.mp hemp
    subst this
    simp [phase2] at hr
  · simp only [phase2, if_neg hemp, List.mem_map] at hr
    obtain ⟨i, _, rfl⟩ := hr
    cases world.classify (pending.getD i defaultHandleItem).handle
        ((getProfileDescription world.snapshot
          (pending.map fun h => h.handle)).getD i
            defaultProfileData).description
        (pending.getD i defaultHandleItem).item.companyName with
    | some a => exact ⟨rfl, rfl⟩
    | none => exact ⟨rfl, rfl⟩

/-- One processBatch call emits exactly one record per input item. -/
theorem processBatch_length (world : World) (batch : List InputItem) :
    (processBatch world batch).length = batch.length := by
  simp only [processBatch, List.length_append, phase2_length]
  exact phase1Go_length world batch

/-- Every record of one processBatch call is "failed" or "processed". -/
theorem processBatch_mem_status (world : World) (batch : List InputItem)
    (r : ResultRecord) (hr : r ∈ processBatch world batch) :
    r.status = "failed" ∨ r.status = "processed" := by
  simp only [processBatch, List.mem_append] at hr
  rcases hr with hr | hr
  · exact Or.inl (phase1Go_mem_status world batch r hr)
  · exact Or.inr (phase2_mem world _ r hr).1

/-- Claim C1: over the batches of a run, every input record yields exactly
one ResultRecord in the accumulated results, and every accumulated record
carries a terminal status among failed, error and processed, no matter at
which pipeline stage the record stopped. -/
theorem processBatch_one_result_per_record (world : World)
    (batches : List (List InputItem)) :
    ((batches.map (processBatch world)).flatten).length = batches.flatten.length
    ∧ ∀ r ∈ (batches.map (processBatch world)).flatten,
        r.status = "failed" ∨ r.status = "error"
        ∨ r.status = "processed" := by
  constructor
  · induction batches with
    | nil => rfl
    | cons b rest ih =>
      simp only [List.map_cons, List.flatten, List.length_append, ih,
        processBatch_length]
  · intro r hr
    simp only [List.mem_flatten, List.mem_map] at hr
    obtain ⟨l, ⟨b, _, rfl⟩, hrl⟩ := hr
    rcases processBatch_mem_status world b r hrl with h | h
    · exact Or.inl h
    · exact Or.inr (Or.inr h)

/-- Witness for claim C1: a one-batch, one-record run yields exactly one
record, with a terminal status. -/
theorem processBatch_one_result_per_record_witness :
    (([[itemJane]].map (processBatch worldZeroResults)).flatten).length =
      ([[itemJane]] : List (List InputItem)).flatten.length
    ∧ (({ baseRecord itemJane "failed" with
          reason := some "No Twitter profile found" } : ResultRecord).status
            = "failed"
        ∨ ({ baseRecord itemJane "failed" with
          reason := some "No Twitter profile found" } : ResultRecord).status
            = "error"
        ∨ ({ baseRecord itemJane "failed" with
          reason := some "No Twitter profile found" } : ResultRecord).status
            = "processed") := by
  have h := processBatch_one_result_per_record worldZeroResults [[itemJane]]
  exact ⟨h.1, h.2 _ (by decide)⟩

/-- Claim C6 counterexample: in the two-record batch [Alice, Bob] where
Alice's record is fully processed and Bob's record fails at the search step,
Bob's ResultRecord precedes Alice's in the output, although Bob follows
Alice in the input; the code emits all early failures during the first loop
and all processed records only afterwards. -/
theorem processBatch_order_counterexample :
    ([itemAlice, itemBob].map fun it => it.founderName) = ["Alice", "Bob"]
    ∧ (processBatch worldMixed [itemAlice, itemBob]).map (fun r => r.name) =
        ["Bob", "Alice"] := by
  exact ⟨rfl, by decide⟩

/-- Claim C6 amended: the ResultRecords of one batch are grouped, not
interleaved: first the records that terminated in the search/extraction
phase, in input order, then the records that reached handle resolution, in
input order; input order is preserved within each group only. -/
theorem processBatch_order_grouped (world : World) (batch : List InputItem) :
    processBatch world batch =
      batch.filterMap (earlyPart world)
      ++ phase2 world (batch.filterMap (pendingPart world)) := by
  simp only [processBatch, phase1Go_eq]

/-- Claim C5 counterexample: for an input whose search returns the explicit
zero-organic-results payload, the emitted ResultRecord has reason
"No Twitter profile found", not the claimed "No search results found". -/
theorem searchZeroResults_reason_counterexample :
    (processBatch worldZeroResults [itemJane]).map
        (fun r => (r.status, r.reason)) =
      [("failed", some "No Twitter profile found")]
    ∧ ("No Twitter profile found" : String) ≠ "No search results found" := by
  exact ⟨by decide, by decide⟩

/-- Claim C5 amended: for an input record whose search returns the explicit
zero-organic-results payload, the orchestrator produces a ResultRecord with
status "failed" and reason "No Twitter profile found" (the empty organic
list yields no profile link, so the record fails at profile extraction; the
reason "No search results found" is reserved for a null fetch result). -/
theorem searchZeroResults_reason_amended (world : World) (item : InputItem)
    (h : (fetchWithRetry (world.search (searchUrl item))).result =
      some ⟨[]⟩) :
    processBatch world [item] =
      [{ baseRecord item "failed" with
          reason := some "No Twitter profile found" }] := by
  have hstep : phase1Step world item =
      .error { baseRecord item "failed" with
                reason := some "No Twitter profile found" } := by
    unfold phase1Step
    rw [h]
    rfl
  simp [processBatch, phase1Go, hstep, phase2]

/-- Witness for amended claim C5: the zero-results world produces exactly
that failed record for a concrete input. -/
theorem searchZeroResults_reason_amended_witness :
    processBatch worldZeroResults [itemJane] =
      [{ baseRecord itemJane "failed" with
          reason := some "No Twitter profile found" }] := by
  exact searchZeroResults_reason_amended worldZeroResults itemJane (by decide)

/-- Claim C7: extractMainProfileLink returns the first link in input order
whose URL path has exactly one non-empty segment and whose query string is
empty; it returns null for a null input, for an empty list, and for any list
in which every link has two or more path segments or a non-empty query; on
the list of a bare profile link followed by a status sub-page link it picks
the bare profile link. -/
theorem extractMainProfileLink_canonical_spec :
    extractMainProfileLink (some []) = none
    ∧ extractMainProfileLink none = none
    ∧ (∀ links, (∀ l ∈ links, ∀ u, parseURL l = some u →
          2 ≤ (pathSegments u).length ∨ u.query ≠ "") →
        extractMainProfileLink (some links) = none)
    ∧ (∀ links i, i < links.length →
        isCanonicalLink (links.getD i "") = true →
        (∀ j, j < i → isCanonicalLink (links.getD j "") = false) →
        extractMainProfileLink (some links) = some (links.getD i ""))
    ∧ extractMainProfileLink
        (some ["https://x.com/alice", "https://x.com/alice/status/123"]) =
      some "https://x.com/alice" := by
  refine ⟨rfl, rfl, ?_, ?_, by decide⟩
  · intro links hyp
    simp only [extractMainProfileLink]
    rw [List.find?_eq_none]
    intro x hx hcan
    unfold isCanonicalLink at hcan
    cases hu : parseURL x with
    | none => rw [hu] at hcan; simp at hcan
    | some u =>
      rw [hu] at hcan
      simp only [Bool.and_eq_true, beq_iff_eq] at hcan
      rcases hyp x hx u hu with h2 | h2
      · omega
      · exact h2 hcan.2
  · intro links
    induction links with
    | nil => intro i hi; simp at hi
    | cons x xs ih =>
      intro i hi hcan hprev
      cases i with
      | zero =>
        simp only [List.getD_cons_zero] at hcan ⊢
        simp only [extractMainProfileLink]
        rw [List.find?_cons_of_pos _ hcan]
      | succ j =>
        have hx : isCanonicalLink x = false := by
          simpa using hprev 0 (by omega)
        simp only [extractMainProfileLink] at ih ⊢
        rw [List.getD_cons_succ]
        rw [List.find?_cons_of_neg _ (by simp [hx])]
        exact ih j (by simpa using hi) (by simpa using hcan)
          (fun j2 hj2 => by simpa using hprev (j2 + 1) (by omega))

/-- Witness for claim C7: a singleton list with a bare profile link is
picked at position 0. -/
theorem extractMainProfileLink_canonical_spec_witness :
    extractMainProfileLink (some ["https://x.com/alice"]) =
      some "https://x.com/alice" := by
  have h := extractMainProfileLink_canonical_spec.2.2.2.1
    ["https://x.com/alice"] 0 (by decide) (by decide)
    (fun j hj => absurd hj (by omega))
  simpa using h

/-- Claim C10: every ProfileData that getProfileDescription can produce has
canDm true, on the success path and on every error path; consequently every
ResultRecord with status "processed" assembled by processBatch carries
dm_status "open": no reachable execution reports a closed-DM profile. -/
theorem canDm_always_true_invariant :
    (∀ (oracle : SnapshotOracle) (handles : List String) (p : ProfileData),
        p ∈ getProfileDescription oracle handles → p.canDm = true)
    ∧ (∀ (world : World) (batch : List InputItem) (r : ResultRecord),
        r ∈ processBatch world batch → r.status = "processed" →
        r.dm_status = some "open") := by
  constructor
  · intro oracle handles p hp
    by_cases hemp : handles.isEmpty
    · rw [List.isEmpty_iff.mp hemp] at hp
      simp [getProfileDescription] at hp
    · cases hrun : runSnapshot oracle handles with
      | error msg =>
        simp only [getProfileDescription, if_neg hemp, hrun] at hp
        obtain ⟨h, _, rfl⟩ := List.mem_map.mp hp
        rfl
      | ok fj =>
        simp only [getProfileDescription, if_neg hemp, hrun] at hp
        obtain ⟨h, _, rfl⟩ := List.mem_map.mp hp
        cases hbm : buildProfileMap fj h with
        | none => rfl
        | some pd =>
          show pd.canDm = true
          exact buildProfileMap_canDm fj h pd hbm
  · intro world batch r hr hstat
    simp only [processBatch, List.mem_append] at hr
    rcases hr with hr | hr
    · have hfail := phase1Go_mem_status world batch r hr
      rw [hstat] at hfail
      exact absurd hfail (by decide)
    · exact (phase2_mem world _ r hr).2

/-- Witness for claim C10: the not-found entry of a resolved snapshot has
canDm true, and the processed record of the mixed-world batch has dm_status
"open". -/
theorem canDm_always_true_invariant_witness :
    notFoundEntry.canDm = true
    ∧ ((processBatch worldMixed [itemAlice, itemBob]).getD 1
        (baseRecord itemJane "none")).dm_status = some "open" := by
  constructor
  · exact canDm_always_true_invariant.1 snapshotEmptyRows ["alice"]
      notFoundEntry (by decide)
  · exact canDm_always_true_invariant.2 worldMixed [itemAlice, itemBob] _
      (by decide) (by decide)
